import Mathlib

/-
Verification of the transducers library (src/lib.rs) against its
natural-language specification.

The Rust sources define the `Transducer` trait, the `transduce` driver and the
function-composition utility (`Composed`, `compose`).  The module `transform`
(declaring `mapping` and `filtering`) is referenced by `mod transform;` but its
file is not part of the sources, so those two constructors are modelled from
the specification text.

Machine-level details that carry no semantic content (the `Vec::with_capacity`
size hint, lifetimes, the `extern rust-call` ABI of the `Fn` implementation)
are not modelled.  The panic behaviour of caller-supplied closures is modelled
by a parallel embedding in the `Except` monad: a Rust panic is an
`Except.error` value that every caller propagates, mirroring the fact that no
function in the source catches unwinding.
-/

namespace Transducers

/-- Shallow embedding of the Rust trait `Transducer<R, T, U>` of src/lib.rs
(lines 49-52): the sole operation `apply` turns a step function of type
`Fn(R, T) -> R` into the associated step type `Step: Fn(R, U) -> R`. -/
structure Transducer (R T U : Type) where
  apply : (R → T → R) → R → U → R

/-- The terminal step function defined inside `transduce` in src/lib.rs
(line 60): `append(r, t)` pushes `t` onto the end of the vector `r` and
returns it. -/
def append {T : Type} (r : List T) (t : T) : List T :=
  r ++ [t]

/-- Shallow embedding of `transduce` of src/lib.rs (lines 55-72): obtain the
effective step function as `trans.apply(append)` once, then left-fold it over
every element the iterator produces, starting from an empty vector.  The
`Vec::with_capacity(min_sz)` pre-sizing is a performance hint with no
observable effect and is not modelled. -/
def transduce {T U : Type} (iter : List U) (trans : Transducer (List T) T U) : List T :=
  iter.foldl (trans.apply append) []

/-- Shallow embedding of the struct `Composed<X, Y, Z, F, G>` of src/lib.rs
(lines 75-78): a value pairing the two composed functions. -/
structure Composed (X Y Z : Type) where
  f : Y → Z
  g : X → Y

/-- Shallow embedding of the `Fn(X) -> Z` implementation for `Composed` in
src/lib.rs (lines 80-89): `call(x)` first computes `y = g(x)`, then
`z = f(y)`, and returns `z`. -/
def Composed.call {X Y Z : Type} (c : Composed X Y Z) (x : X) : Z :=
  c.f (c.g x)

/-- Shallow embedding of `compose` of src/lib.rs (lines 92-96): merely stores
`f` and `g` in a `Composed` value. -/
def compose {X Y Z : Type} (f : Y → Z) (g : X → Y) : Composed X Y Z :=
  ⟨f, g⟩

/-- Modelled from the spec: `mapping`, declared in the missing module
`transform` (src/lib.rs line 42 declares `mod transform;` but the file is not
in the sources).  Spec section 4.3: built from one transform function;
`apply(step)` returns the step function taking `(r, x)` to `step(r, f(x))`.
In the letter convention of the trait in src/lib.rs the transform maps source
elements of type `U` to collected elements of type `T`. -/
def mapping {R T U : Type} (f : U → T) : Transducer R T U :=
  ⟨fun step r x => step r (f x)⟩

/-- Modelled from the spec: `filtering`, declared in the missing module
`transform`.  Spec section 4.4: built from one predicate; `apply(step)`
returns the step function taking `(r, x)` to `step(r, x)` when `p(x)` holds
and to `r` unchanged otherwise. -/
def filtering {R T : Type} (p : T → Bool) : Transducer R T T :=
  ⟨fun step r x => if p x then step r x else r⟩

/-- Error-monad counterpart of the `Transducer` trait, used for the panic
propagation claims: a step function may fail with an error that stands for a
Rust panic. -/
structure TransducerE (ε R T U : Type) where
  apply : (R → T → Except ε R) → R → U → Except ε R

/-- Error-monad counterpart of `transduce` of src/lib.rs: the for-loop that
threads the accumulator becomes a monadic left fold, so an error raised by the
effective step function aborts the fold and propagates to the caller; nothing
is caught.  The terminal `append` step itself never fails. -/
def transduceE {ε T U : Type} (iter : List U) (trans : TransducerE ε (List T) T U) :
    Except ε (List T) :=
  iter.foldlM (trans.apply (fun r t => Except.ok (append r t))) []

/-- Modelled from the spec: error-monad counterpart of `mapping` (spec section
4.3, edge cases).  The transform runs first; if it raises, the error
propagates and the inner step is never reached; otherwise the inner step runs
on the transformed element and its own error, if any, propagates. -/
def mappingE {ε R T U : Type} (f : U → Except ε T) : TransducerE ε R T U :=
  ⟨fun step r x => (f x).bind (step r)⟩

/-- Modelled from the spec: error-monad counterpart of `filtering` (spec
section 4.4).  The predicate runs first; if it raises, the error propagates;
otherwise the element is folded or skipped according to the predicate. -/
def filteringE {ε R T : Type} (p : T → Except ε Bool) : TransducerE ε R T T :=
  ⟨fun step r x => (p x).bind (fun b => if b then step r x else Except.ok r)⟩

/-- Error-monad counterpart of the struct `Composed` of src/lib.rs. -/
structure ComposedE (ε X Y Z : Type) where
  f : Y → Except ε Z
  g : X → Except ε Y

/-- Error-monad counterpart of `Composed::call` of src/lib.rs (lines 83-88):
`g` runs first and its error propagates before `f` is ever invoked; otherwise
`f` runs on the intermediate value and its error, if any, propagates. -/
def ComposedE.call {ε X Y Z : Type} (c : ComposedE ε X Y Z) (x : X) : Except ε Z :=
  (c.g x).bind c.f

/-- Error-monad counterpart of `compose` of src/lib.rs: merely stores the two
functions, invoking neither. -/
def composeE {ε X Y Z : Type} (f : Y → Except ε Z) (g : X → Except ε Y) :
    ComposedE ε X Y Z :=
  ⟨f, g⟩

/-- Left-folding the mapping step accumulates the mapped elements after any
starting accumulator. -/
theorem foldl_mapping_step {T U : Type} (f : U → T) (v : List U) (acc : List T) :
    v.foldl (fun r x => append r (f x)) acc = acc ++ v.map f := by
  induction v generalizing acc with
  | nil => simp
  | cons x xs ih =>
    rw [List.foldl_cons, ih]
    simp [append]

/-- Left-folding the filtering step accumulates the retained elements after
any starting accumulator. -/
theorem foldl_filtering_step {T : Type} (p : T → Bool) (v : List T) (acc : List T) :
    v.foldl (fun r x => if p x then append r x else r) acc = acc ++ v.filter p := by
  induction v generalizing acc with
  | nil => simp
  | cons x xs ih =>
    rw [List.foldl_cons, ih]
    by_cases h : p x <;> simp [append, List.filter_cons, h]

/-- Unfolding of the monadic left fold over `Except` on a cons cell. -/
theorem exc_foldlM_cons {ε S A : Type} (F : S → A → Except ε S) (s : S) (a : A) (l : List A) :
    List.foldlM F s (a :: l) = (F s a).bind (fun s2 => List.foldlM F s2 l) :=
  rfl

/-- When the transform succeeds on every element of a prefix and fails on the
next element, the monadic fold of the mapping step fails with that error from
any starting accumulator. -/
theorem foldlM_mappingE_error {ε T U : Type} (f : U → Except ε T)
    (x : U) (w : List U) (e : ε) (hx : f x = Except.error e) :
    ∀ v : List U, (∀ u ∈ v, ∃ t, f u = Except.ok t) → ∀ acc : List T,
      List.foldlM ((mappingE f).apply (fun r t => Except.ok (append r t))) acc (v ++ x :: w)
        = Except.error e := by
  intro v
  induction v with
  | nil =>
    intro _ acc
    rw [List.nil_append, exc_foldlM_cons]
    show (((f x).bind fun t => Except.ok (append acc t)).bind _) = Except.error e
    rw [hx]
    rfl
  | cons u us ih =>
    intro hok acc
    obtain ⟨t, ht⟩ := hok u (List.mem_cons_self u us)
    rw [List.cons_append, exc_foldlM_cons]
    show (((f u).bind fun t2 => Except.ok (append acc t2)).bind _) = Except.error e
    rw [ht]
    exact ih (fun u2 hu2 => hok u2 (List.mem_cons_of_mem u hu2)) (append acc t)

/-- When the predicate succeeds on every element of a prefix and fails on the
next element, the monadic fold of the filtering step fails with that error
from any starting accumulator. -/
theorem foldlM_filteringE_error {ε T : Type} (p : T → Except ε Bool)
    (y : T) (w : List T) (e : ε) (hy : p y = Except.error e) :
    ∀ v : List T, (∀ t ∈ v, ∃ b, p t = Except.ok b) → ∀ acc : List T,
      List.foldlM ((filteringE p).apply (fun r t => Except.ok (append r t))) acc (v ++ y :: w)
        = Except.error e := by
  intro v
  induction v with
  | nil =>
    intro _ acc
    rw [List.nil_append, exc_foldlM_cons]
    show (((p y).bind fun b => if b then Except.ok (append acc y) else Except.ok acc).bind _)
      = Except.error e
    rw [hy]
    rfl
  | cons t ts ih =>
    intro hok acc
    obtain ⟨b, hb⟩ := hok t (List.mem_cons_self t ts)
    rw [List.cons_append, exc_foldlM_cons]
    show (((p t).bind fun b2 => if b2 then Except.ok (append acc t) else Except.ok acc).bind _)
      = Except.error e
    rw [hb]
    cases b with
    | true => exact ih (fun t2 ht2 => hok t2 (List.mem_cons_of_mem t ht2)) (append acc t)
    | false => exact ih (fun t2 ht2 => hok t2 (List.mem_cons_of_mem t ht2)) acc

/-- C1: for every transform `f` and input sequence `v`, transducing `v`
through `mapping f` yields the sequence obtained by applying `f` to every
element of `v` in order, with the same length and order; in particular
doubling every element of `[2, 3, 5, 7, 11]` yields `[4, 6, 10, 14, 22]`. -/
theorem transduce_mapping_eq_map :
    (∀ (T U : Type) (f : U → T) (v : List U), transduce v (mapping f) = v.map f) ∧
    transduce [2, 3, 5, 7, 11] (mapping (fun x : Int => 2 * x)) = [4, 6, 10, 14, 22] := by
  constructor
  · intro T U f v
    show v.foldl (fun r x => append r (f x)) [] = v.map f
    rw [foldl_mapping_step]
    simp
  · decide

/-- C2: for every predicate `p` and input sequence `v`, transducing `v`
through `filtering p` yields the order-preserving subsequence of `v` of
exactly the elements satisfying `p`; in particular keeping the even elements
of `[2, 3, 5, 6, 7, 11]` yields `[2, 6]` and keeping the elements not
divisible by three yields `[2, 5, 7, 11]`. -/
theorem transduce_filtering_eq_filter :
    (∀ (T : Type) (p : T → Bool) (v : List T), transduce v (filtering p) = v.filter p) ∧
    transduce [2, 3, 5, 6, 7, 11] (filtering (fun x : Int => decide (x % 2 = 0))) = [2, 6] ∧
    transduce [2, 3, 5, 6, 7, 11] (filtering (fun x : Int => decide (x % 3 ≠ 0))) =
      [2, 5, 7, 11] := by
  refine ⟨?_, by decide, by decide⟩
  intro T p v
  show v.foldl (fun r x => if p x then append r x else r) [] = v.filter p
  rw [foldl_filtering_step]
  simp

/-- C4: function composition is associative: composing in either grouping
gives the same result on every input; in particular with `f x = 2 * x`,
`g x = x + 2` and `h x = x * x`, both groupings send `42` to `3532`. -/
theorem compose_assoc :
    (∀ (W X Y Z : Type) (f : Y → Z) (g : X → Y) (h : W → X) (x : W),
      (compose (compose f g).call h).call x = (compose f (compose g h).call).call x) ∧
    (compose (compose (fun x : Int => x * 2) (fun x : Int => x + 2)).call
      (fun x : Int => x * x)).call 42 = 3532 ∧
    (compose (fun x : Int => x * 2)
      (compose (fun x : Int => x + 2) (fun x : Int => x * x)).call).call 42 = 3532 :=
  ⟨fun _ _ _ _ _ _ _ _ => rfl, by decide, by decide⟩

/-- C5: the step function returned by `filtering(p).apply(step)` sends
`(r, x)` to `step r x` when `p x` holds and to `r` unchanged otherwise;
moreover an instrumented inner step that logs every element it is invoked on,
folded over any input, logs exactly the elements satisfying `p`, so the
wrapped inner step is never invoked on an element that fails the predicate. -/
theorem filtering_apply_step :
    (∀ (R T : Type) (p : T → Bool) (step : R → T → R) (r : R) (x : T),
      (filtering p).apply step r x = if p x then step r x else r) ∧
    (∀ (R T : Type) (p : T → Bool) (step : R → T → R) (r : R) (v : List T),
      (v.foldl ((filtering p).apply (fun a t => (step a.1 t, a.2 ++ [t])))
        (r, ([] : List T))).2 = v.filter p) := by
  constructor
  · intro R T p step r x
    rfl
  · intro R T p step r v
    suffices h : ∀ (a : R × List T),
        (v.foldl ((filtering p).apply (fun a t => (step a.1 t, a.2 ++ [t]))) a).2 =
          a.2 ++ v.filter p by
      simpa using h (r, [])
    induction v with
    | nil => intro a; simp
    | cons x xs ih =>
      intro a
      rw [List.foldl_cons, ih]
      by_cases h : p x <;>
        simp [Transducer.apply, filtering, List.filter_cons, h]

/-- C3: `compose(f, g)` returns a function whose call at any `x` equals
`f(g(x))`, for all function values `f : Y -> Z` and `g : X -> Y`. -/
theorem compose_call_eq :
    ∀ (X Y Z : Type) (f : Y → Z) (g : X → Y) (x : X),
      (compose f g).call x = f (g x) :=
  fun _ _ _ _ _ _ => rfl

/-- C8: `transduce` applied to an empty source returns the empty collection,
for every transducer. -/
theorem transduce_nil_eq_nil :
    ∀ (T U : Type) (trans : Transducer (List T) T U), transduce [] trans = [] :=
  fun _ _ _ => rfl

/-- C9: `transduce` is exactly the left fold of the once-computed effective
step function `trans.apply append` over the source starting from the empty
collection; consequently transducing `v ++ w` equals folding that step over
`w` starting from the result of transducing `v`. -/
theorem transduce_eq_foldl :
    ∀ (T U : Type) (trans : Transducer (List T) T U) (v w : List U),
      transduce v trans = v.foldl (trans.apply append) [] ∧
      transduce (v ++ w) trans = w.foldl (trans.apply append) (transduce v trans) := by
  intro T U trans v w
  exact ⟨rfl, by simp [transduce, List.foldl_append]⟩

/-- C6 (amended): the apply operation of every transducer consumes a step
function over the accumulator and the collected (output) element type `T` and
produces a step function over the accumulator and the source (input) element
type `U` — for `mapping` with transform `f : U → T` the produced step feeds
the transformed input `f x : T` to the consumed step — and consistently the
driver accepts a source producing input elements of type `U` together with a
transducer whose accumulator is `List T`, and returns a `List T` of output
elements. -/
theorem apply_transduce_types :
    ∀ (R T U : Type) (tr : Transducer R T U) (step : R → T → R) (f : U → T)
      (src : List U) (trv : Transducer (List T) T U),
      (∃ produced : R → U → R, tr.apply step = produced) ∧
      (∀ (r : R) (u : U), (mapping f).apply step r u = step r (f u)) ∧
      (∃ result : List T, transduce src trv = result) ∧
      transduce src (mapping f) = src.map f := by
  intro R T U tr step f src trv
  refine ⟨⟨tr.apply step, rfl⟩, fun r u => rfl, ⟨transduce src trv, rfl⟩, ?_⟩
  show src.foldl (fun r x => append r (f x)) [] = src.map f
  rw [foldl_mapping_step]
  simp

/-- C6, counterexample to the claim as stated: the claim makes the produced
step function and the result collection carry the transducer input element
type while the source carries the output element type.  For the type-changing
mapping of the parity test from `Nat` (the input type) to `Bool` (the output
type), the driver consumes a source of `Nat` inputs and returns a collection
of `Bool` outputs, which the claim permits only if `Nat` and `Bool` were the
same type; they are not. -/
theorem apply_transduce_types_cex :
    transduce [1, 2] (mapping (fun n : Nat => decide (n % 2 = 0))) = [false, true] ∧
    Nat ≠ Bool := by
  refine ⟨by decide, fun h => ?_⟩
  haveI : Infinite Bool := h ▸ (inferInstance : Infinite Nat)
  exact not_finite Bool

/-- C7: an error raised by the caller-supplied transform, by the predicate,
or by the step function wrapped by mapping, propagates unmodified out of the
fold of `transduceE`: the result is exactly that error, so the accumulator
built before the failing element is discarded rather than returned. -/
theorem transduce_error_propagation :
    ∀ (ε T U : Type) (f : U → Except ε T) (p : T → Except ε Bool)
      (v w : List U) (vp wp : List T) (x : U) (y : T) (e1 e2 : ε),
      (∀ u ∈ v, ∃ t, f u = Except.ok t) →
      f x = Except.error e1 →
      (∀ t ∈ vp, ∃ b, p t = Except.ok b) →
      p y = Except.error e2 →
      transduceE (v ++ x :: w) (mappingE f) = Except.error e1 ∧
      transduceE (vp ++ y :: wp) (filteringE p) = Except.error e2 ∧
      (∀ (R : Type) (stepE : R → T → Except ε R) (r : R) (u : U) (t : T) (e3 : ε),
        f u = Except.ok t → stepE r t = Except.error e3 →
        (mappingE f).apply stepE r u = Except.error e3) ∧
      (∀ (V : Type) (cf : V → Except ε T) (cg : U → Except ε V) (e4 : ε),
        (∀ u ∈ v, ∃ t, (composeE cf cg).call u = Except.ok t) →
        (composeE cf cg).call x = Except.error e4 →
        transduceE (v ++ x :: w) (mappingE (composeE cf cg).call) = Except.error e4) := by
  intro ε T U f p v w vp wp x y e1 e2 hfok hfx hpok hpy
  refine ⟨foldlM_mappingE_error f x w e1 hfx v hfok [],
          foldlM_filteringE_error p y wp e2 hpy vp hpok [], ?_, ?_⟩
  · intro R stepE r u t e3 hu hstep
    show (f u).bind (stepE r) = Except.error e3
    rw [hu]
    exact hstep
  · intro V cf cg e4 hcok hcx
    exact foldlM_mappingE_error (composeE cf cg).call x w e4 hcx v hcok []

/-- C7 witness: with a transform failing on input 0 after succeeding on 1 and
2, and a predicate failing on element 5 after succeeding on 2 and 3, both
transduceE calls return exactly the raised error. -/
theorem transduce_error_propagation_witness :
    transduceE [1, 2, 0, 3]
      (mappingE (fun u : Nat =>
        if u = 0 then (Except.error 9 : Except Nat Nat) else Except.ok (2 * u)))
      = Except.error 9 ∧
    transduceE [2, 3, 5, 4]
      (filteringE (fun t : Nat =>
        if t = 5 then (Except.error 8 : Except Nat Bool) else Except.ok (decide (t % 2 = 0))))
      = Except.error 8 ∧
    transduceE [1, 2, 0, 3]
      (mappingE (composeE (fun t : Nat => (Except.ok (2 * t) : Except Nat Nat))
        (fun u : Nat => if u = 0 then (Except.error 9 : Except Nat Nat)
          else Except.ok u)).call)
      = Except.error 9 := by
  have h := transduce_error_propagation Nat Nat Nat
    (fun u : Nat => if u = 0 then (Except.error 9 : Except Nat Nat) else Except.ok (2 * u))
    (fun t : Nat => if t = 5 then (Except.error 8 : Except Nat Bool)
      else Except.ok (decide (t % 2 = 0)))
    [1, 2] [3] [2, 3] [4] 0 5 9 8
    (by intro u hu; fin_cases hu <;> exact ⟨_, rfl⟩)
    rfl
    (by intro t ht; fin_cases ht <;> exact ⟨_, rfl⟩)
    rfl
  refine ⟨h.1, h.2.1, ?_⟩
  exact h.2.2.2 Nat
    (fun t : Nat => (Except.ok (2 * t) : Except Nat Nat))
    (fun u : Nat => if u = 0 then (Except.error 9 : Except Nat Nat) else Except.ok u)
    9
    (by intro u hu; fin_cases hu <;> exact ⟨_, rfl⟩)
    rfl

/-- C10: constructing the composition stores `f` and `g` without invoking
either; a call evaluates `g` before `f`: when `g` fails, its error is the
result and `f` is never consulted (the result is the same for every `f`), and
when `g` succeeds and `f` fails on the intermediate value, the error of `f`
is the result. -/
theorem composed_call_order :
    ∀ (ε X Y Z : Type) (f : Y → Except ε Z) (g : X → Except ε Y) (x : X),
      composeE f g = ComposedE.mk f g ∧
      (∀ e, g x = Except.error e →
        (composeE f g).call x = Except.error e ∧
        ∀ f2 : Y → Except ε Z, (composeE f g).call x = (composeE f2 g).call x) ∧
      (∀ yv e2, g x = Except.ok yv → f yv = Except.error e2 →
        (composeE f g).call x = Except.error e2) := by
  intro ε X Y Z f g x
  refine ⟨rfl, ?_, ?_⟩
  · intro e hg
    constructor
    · show (g x).bind f = Except.error e
      rw [hg]
      rfl
    · intro f2
      show (g x).bind f = (g x).bind f2
      rw [hg]
      rfl
  · intro yv e2 hg hf
    show (g x).bind f = Except.error e2
    rw [hg]
    exact hf

/-- C10 witness: with an inner function failing on input 1 and an outer
function failing on value 0, calling the composition at 1 yields the inner
error 3, and calling it at 2 (where the inner function returns 0) yields the
outer error 7. -/
theorem composed_call_order_witness :
    (composeE
      (fun yv : Nat => if yv = 0 then (Except.error 7 : Except Nat Nat) else Except.ok (yv + 1))
      (fun x : Nat => if x = 1 then (Except.error 3 : Except Nat Nat) else Except.ok 0)).call 1
      = Except.error 3 ∧
    (composeE
      (fun yv : Nat => if yv = 0 then (Except.error 7 : Except Nat Nat) else Except.ok (yv + 1))
      (fun x : Nat => if x = 1 then (Except.error 3 : Except Nat Nat) else Except.ok 0)).call 2
      = Except.error 7 := by
  have h1 := composed_call_order Nat Nat Nat Nat
    (fun yv : Nat => if yv = 0 then (Except.error 7 : Except Nat Nat) else Except.ok (yv + 1))
    (fun x : Nat => if x = 1 then (Except.error 3 : Except Nat Nat) else Except.ok 0) 1
  have h2 := composed_call_order Nat Nat Nat Nat
    (fun yv : Nat => if yv = 0 then (Except.error 7 : Except Nat Nat) else Except.ok (yv + 1))
    (fun x : Nat => if x = 1 then (Except.error 3 : Except Nat Nat) else Except.ok 0) 2
  exact ⟨(h1.2.1 3 rfl).1, h2.2.2 0 7 rfl rfl⟩

end Transducers
